import Mathlib

/-!
Shallow embedding of the interpretability-metric code of the scripts
`PredictDiabetesDecisionTree.py` and `PredictDiabetesRandomForest.py`.

The two scripts differ only in the classifier they train; their scoring
logic (explanation-to-vector mapping, sparsity, stability, fidelity,
composite interpretability score and verdict) is embedded here, once per
script, in the namespaces `DecisionTree` and `RandomForest`.

Modelling conventions:
- Python floats are modelled as exact rationals (`ℚ`) for the computable
  parts and as reals (`ℝ`) where square roots appear (cosine similarity).
- `numpy` arrays are Lean lists; `np.zeros(n)` is `List.replicate n 0`;
  `vec[idx] = x` is `List.set`.
- The Python substring test `needle in hay` is `strContains hay needle`.
- `sklearn.metrics.mean_squared_error` is the mean of squared differences.
- `sklearn.metrics.pairwise.cosine_similarity` on two row vectors equals
  `dot v1 v2 / (‖v1‖ * ‖v2‖)`, where sklearn replaces a zero norm by 1
  (yielding 0, since the dot product with a zero vector is 0); with
  Lean's `x / 0 = 0` convention the plain quotient agrees with sklearn
  on zero vectors as well, so `cosine_similarity` below is stated as the
  plain quotient.
-/

/-- The empty string (used as a default element for list lookups). -/
def emptyStr : String := ""

/-- Python substring test: `strContains hay needle` holds iff `needle`
occurs contiguously inside `hay` (Python `needle in hay`). -/
def strContains (hay needle : String) : Bool :=
  (List.range (hay.toList.length + 1)).any fun i =>
    needle.toList == ((hay.toList.drop i).take needle.toList.length)

/-- `sklearn.metrics.mean_squared_error`: the mean of the squared
differences of the two sequences. -/
def mean_squared_error (y_true y_pred : List ℚ) : ℚ :=
  (List.zipWith (fun a b => (a - b) ^ 2) y_true y_pred).sum / (y_true.length : ℚ)

/-- Dot product of two vectors (componentwise product, then sum). -/
def dotQ (v1 v2 : List ℚ) : ℚ :=
  (List.zipWith (fun a b => a * b) v1 v2).sum

/-- `sklearn.metrics.pairwise.cosine_similarity` of two row vectors:
`dot v1 v2 / (‖v1‖ * ‖v2‖)`.  sklearn replaces a zero norm by 1 before
dividing; on a zero vector both conventions give 0 (see the module
comment), so the plain quotient below is extensionally the sklearn value. -/
noncomputable def cosine_similarity (v1 v2 : List ℚ) : ℝ :=
  ((dotQ v1 v2 : ℚ) : ℝ) /
    (Real.sqrt ((dotQ v1 v1 : ℚ) : ℝ) * Real.sqrt ((dotQ v2 v2 : ℚ) : ℝ))

/-- A `numpy` array as returned by indexing into SHAP values: either a
1-dimensional vector or a 2-dimensional matrix (`ndim == 2`). -/
inductive NArray where
  | vec (v : List ℚ)
  | mat (m : List (List ℚ))
deriving DecidableEq

namespace DecisionTree

/-- Loop body of `explanation_to_vector` in `PredictDiabetesDecisionTree.py`:
for one `(feat, weight)` pair of `explanation.as_list()`, compute
`matched = [f for f in feature_names if f in feat]`; if nonempty, set
`vec[list(feature_names).index(matched[0])] = abs(weight)`. -/
def applyEntry (feature_names : List String) (vec : List ℚ) (fw : String × ℚ) : List ℚ :=
  match feature_names.filter (fun f => strContains fw.1 f) with
  | [] => vec
  | m :: _ => vec.set (feature_names.indexOf m) |fw.2|

/-- `explanation_to_vector(explanation, feature_names)` from
`PredictDiabetesDecisionTree.py` (lines 134-141): start from
`np.zeros(len(feature_names))` and run the loop body over the
explanation's `(feat, weight)` list. -/
def explanation_to_vector (explanation : List (String × ℚ)) (feature_names : List String) :
    List ℚ :=
  explanation.foldl (applyEntry feature_names) (List.replicate feature_names.length 0)

/-- `calculate_sparsity_score(explanation_features, total_features)` from
`PredictDiabetesDecisionTree.py` (lines 143-144):
`1 - (len(explanation_features) / total_features)`. -/
def calculate_sparsity_score (explanation_features : List String) (total_features : ℕ) : ℚ :=
  1 - ((explanation_features.length : ℚ) / (total_features : ℚ))

/-- Variant of `calculate_sparsity_score` that makes the only Python
failure point of that function explicit: division by zero
(`ZeroDivisionError` when `total_features == 0`) is `none`; every other
input returns a value. -/
def calculate_sparsity_score_checked (explanation_features : List String)
    (total_features : ℕ) : Option ℚ :=
  if total_features = 0 then none
  else some (1 - ((explanation_features.length : ℚ) / (total_features : ℚ)))

/-- `get_shap_vector(shap_values, i)` from `PredictDiabetesDecisionTree.py`
(lines 146-150): take `vals = shap_values[i].values`; if `vals` is a
2-dimensional array with exactly 2 rows, return its second row, else
return `vals` unchanged. -/
def get_shap_vector (shap_values : List NArray) (i : ℕ) : NArray :=
  match shap_values.getD i (NArray.vec []) with
  | NArray.mat m => if m.length = 2 then NArray.vec (m.getD 1 []) else NArray.mat m
  | NArray.vec v => NArray.vec v

/-- `np.argsort(np.abs(shap_vec))`: the indices `0, …, n-1` sorted by
ascending absolute value of the corresponding entry (`numpy` leaves the
order of ties unspecified; only the length and index set of the result
are relied upon downstream). -/
def argsortAbs (v : List ℚ) : List ℕ :=
  (List.range v.length).mergeSort (fun i j => decide (|v.getD i 0| ≤ |v.getD j 0|))

/-- `shap_explained_features` from `PredictDiabetesDecisionTree.py`
(line 165): `[X.columns[i] for i in np.argsort(np.abs(shap_vec_1))[-5:]]`,
the feature names at the last five positions of the argsort (Python
`[-5:]` keeps the whole list when it is shorter than 5). -/
def shap_explained_features (feature_names : List String) (shap_vec : List ℚ) : List String :=
  ((argsortAbs shap_vec).drop ((argsortAbs shap_vec).length - 5)).map
    (fun i => feature_names.getD i emptyStr)

/-- `shap_fidelity_score` (line 180): `1 - mean_squared_error(model_preds, model_preds)`. -/
def shap_fidelity_score (model_preds : List ℚ) : ℚ :=
  1 - mean_squared_error model_preds model_preds

/-- `lime_fidelity_score` (line 181): `1 - mean_squared_error(model_preds, lime_preds)`. -/
def lime_fidelity_score (model_preds lime_preds : List ℚ) : ℚ :=
  1 - mean_squared_error model_preds lime_preds

/-- Composite interpretability score (lines 184-186):
`w1, w2, w3 = 0.3, 0.3, 0.4` and score `= w1*sparsity + w2*stability + w3*fidelity`. -/
def interpretability_score (sparsity stability fidelity : ℝ) : ℝ :=
  0.3 * sparsity + 0.3 * stability + 0.4 * fidelity

/-- The verdict (line 189): the SHAP-favouring string exactly when
`shap_interpretability_score > lime_interpretability_score`, otherwise the
fail-to-reject string. -/
noncomputable def conclusion (shap_interpretability_score lime_interpretability_score : ℝ) :
    String :=
  if shap_interpretability_score > lime_interpretability_score then
    "SHAP is more interpretable than LIME (Reject H0, Accept H1)"
  else
    "SHAP is not more interpretable than LIME (Fail to reject H0)"

end DecisionTree

namespace RandomForest

/-- `get_shap_vector(shap_values, i)` from `PredictDiabetesRandomForest.py`
(lines 143-147), identical text to the decision-tree script. -/
def get_shap_vector (shap_values : List NArray) (i : ℕ) : NArray :=
  match shap_values.getD i (NArray.vec []) with
  | NArray.mat m => if m.length = 2 then NArray.vec (m.getD 1 []) else NArray.mat m
  | NArray.vec v => NArray.vec v

/-- Loop body of `explanation_to_vector` in `PredictDiabetesRandomForest.py`
(lines 151-155), identical text to the decision-tree script. -/
def applyEntry (feature_names : List String) (vec : List ℚ) (fw : String × ℚ) : List ℚ :=
  match feature_names.filter (fun f => strContains fw.1 f) with
  | [] => vec
  | m :: _ => vec.set (feature_names.indexOf m) |fw.2|

/-- `explanation_to_vector(explanation, feature_names)` from
`PredictDiabetesRandomForest.py` (lines 149-156). -/
def explanation_to_vector (explanation : List (String × ℚ)) (feature_names : List String) :
    List ℚ :=
  explanation.foldl (applyEntry feature_names) (List.replicate feature_names.length 0)

/-- `calculate_sparsity_score(explanation_features, total_features)` from
`PredictDiabetesRandomForest.py` (lines 158-159). -/
def calculate_sparsity_score (explanation_features : List String) (total_features : ℕ) : ℚ :=
  1 - ((explanation_features.length : ℚ) / (total_features : ℚ))

/-- `shap_explained_features` from `PredictDiabetesRandomForest.py` (line 174). -/
def shap_explained_features (feature_names : List String) (shap_vec : List ℚ) : List String :=
  (((List.range shap_vec.length).mergeSort
      (fun i j => decide (|shap_vec.getD i 0| ≤ |shap_vec.getD j 0|))).drop
    (((List.range shap_vec.length).mergeSort
      (fun i j => decide (|shap_vec.getD i 0| ≤ |shap_vec.getD j 0|))).length - 5)).map
    (fun i => feature_names.getD i emptyStr)

/-- `shap_fidelity_score` (line 187). -/
def shap_fidelity_score (model_preds : List ℚ) : ℚ :=
  1 - mean_squared_error model_preds model_preds

/-- `lime_fidelity_score` (line 188). -/
def lime_fidelity_score (model_preds lime_preds : List ℚ) : ℚ :=
  1 - mean_squared_error model_preds lime_preds

/-- Composite interpretability score (lines 191-193). -/
def interpretability_score (sparsity stability fidelity : ℝ) : ℝ :=
  0.3 * sparsity + 0.3 * stability + 0.4 * fidelity

/-- The verdict (line 196), identical text to the decision-tree script. -/
noncomputable def conclusion (shap_interpretability_score lime_interpretability_score : ℝ) :
    String :=
  if shap_interpretability_score > lime_interpretability_score then
    "SHAP is more interpretable than LIME (Reject H0, Accept H1)"
  else
    "SHAP is not more interpretable than LIME (Fail to reject H0)"

end RandomForest

/-- Index written by one explanation entry with token `tok`: the position
of the first feature name that occurs in `tok` as a substring, if any.
`DecisionTree.applyEntry` is shown below to write exactly this index. -/
def writeIdx (feature_names : List String) (tok : String) : Option ℕ :=
  match feature_names with
  | [] => none
  | f :: fs => if strContains tok f then some 0 else (writeIdx fs tok).map (· + 1)

/-- Absolute weight of the last explanation entry that writes position `i`
of the vector (the entry whose token's earliest matching feature name is
the one at position `i`), if any such entry exists. -/
def lastWeight (F : List String) (E : List (String × ℚ)) (i : ℕ) : Option ℚ :=
  (E.reverse.find? (fun fw => writeIdx F fw.1 == some i)).map (fun fw => |fw.2|)

/-! Helper lemmas shared between claims. -/

theorem sum_zipWith_sub_sq_self (m : List ℚ) :
    (List.zipWith (fun a b => (a - b) ^ 2) m m).sum = 0 := by
  induction m with
  | nil => rfl
  | cons a as ih => simp [ih]

theorem mean_squared_error_self (m : List ℚ) : mean_squared_error m m = 0 := by
  unfold mean_squared_error
  rw [sum_zipWith_sub_sq_self]
  simp

/-- C3: for `n > 0` the sparsity score is exactly `1 - used/n`; it lies in
`[0,1]` whenever `used ≤ n`, is `0` at `used = n`, is `1` at `used = 0`,
and is not clamped: it goes strictly negative as soon as `used > n`. -/
theorem C3_sparsity_formula_and_bounds (fs : List String) (n : ℕ) (hn : 0 < n) :
    DecisionTree.calculate_sparsity_score fs n = 1 - ((fs.length : ℚ) / (n : ℚ))
    ∧ (fs.length ≤ n →
        0 ≤ DecisionTree.calculate_sparsity_score fs n
        ∧ DecisionTree.calculate_sparsity_score fs n ≤ 1)
    ∧ (fs.length = n → DecisionTree.calculate_sparsity_score fs n = 0)
    ∧ (fs.length = 0 → DecisionTree.calculate_sparsity_score fs n = 1)
    ∧ (n < fs.length → DecisionTree.calculate_sparsity_score fs n < 0) := by
  have hnq : (0 : ℚ) < (n : ℚ) := by exact_mod_cast hn
  unfold DecisionTree.calculate_sparsity_score
  refine ⟨rfl, ?_, ?_, ?_, ?_⟩
  · intro h
    have h1 : (fs.length : ℚ) ≤ (n : ℚ) := by exact_mod_cast h
    have h2 : (fs.length : ℚ) / n ≤ 1 := (div_le_one hnq).mpr h1
    have h3 : 0 ≤ (fs.length : ℚ) / n := div_nonneg (by positivity) hnq.le
    exact ⟨by linarith, by linarith⟩
  · intro h
    rw [h, div_self hnq.ne']
    ring
  · intro h
    rw [h]
    simp
  · intro h
    have h1 : (n : ℚ) < (fs.length : ℚ) := by exact_mod_cast h
    have h2 : 1 < (fs.length : ℚ) / n := (one_lt_div hnq).mpr h1
    linarith

/-- Witness for C3 at a concrete input: 3 used features out of 8. -/
theorem C3_sparsity_witness :
    0 < 8 ∧ DecisionTree.calculate_sparsity_score ["Glucose", "BMI", "Age"] 8
      = 1 - ((3 : ℚ) / 8) := by
  refine ⟨by norm_num, ?_⟩
  have h := (C3_sparsity_formula_and_bounds ["Glucose", "BMI", "Age"] 8 (by norm_num)).1
  simpa using h

/-- C5: fidelity is `1 - MSE`; it equals exactly 1 when the technique's
predicted probabilities coincide with the model's, and the SHAP fidelity,
computed as `1 - MSE(model_preds, model_preds)`, is degenerately 1. -/
theorem C5_fidelity_one_on_match (model_preds lime_preds : List ℚ)
    (h : lime_preds = model_preds) (hne : model_preds ≠ []) :
    DecisionTree.lime_fidelity_score model_preds lime_preds = 1
    ∧ DecisionTree.shap_fidelity_score model_preds = 1
    ∧ DecisionTree.lime_fidelity_score model_preds lime_preds
        = 1 - mean_squared_error model_preds lime_preds := by
  subst h
  refine ⟨?_, ?_, rfl⟩ <;>
    simp [DecisionTree.lime_fidelity_score, DecisionTree.shap_fidelity_score,
      mean_squared_error_self]

/-- Witness for C5 at a concrete two-instance probability list. -/
theorem C5_fidelity_witness :
    ([(1 : ℚ) / 2, 3 / 4] = [(1 : ℚ) / 2, 3 / 4]
      ∧ [(1 : ℚ) / 2, 3 / 4] ≠ ([] : List ℚ))
    ∧ DecisionTree.lime_fidelity_score [(1 : ℚ) / 2, 3 / 4] [(1 : ℚ) / 2, 3 / 4] = 1 := by
  refine ⟨⟨rfl, by simp⟩, ?_⟩
  exact (C5_fidelity_one_on_match [(1 : ℚ) / 2, 3 / 4] [(1 : ℚ) / 2, 3 / 4] rfl (by simp)).1

/-- C2 (amended): the composite score is exactly
`0.3*sparsity + 0.3*stability + 0.4*fidelity`, computed by the same
function for both techniques, and whenever SHAP's composite is strictly
higher than LIME's the verdict declares SHAP more interpretable; when
LIME's composite is higher or equal the verdict is the fail-to-reject
string (it does not declare LIME more interpretable). -/
theorem C2_composite_and_verdict (s1 st1 f1 s2 st2 f2 : ℝ)
    (h : DecisionTree.interpretability_score s2 st2 f2
      < DecisionTree.interpretability_score s1 st1 f1) :
    DecisionTree.interpretability_score s1 st1 f1 = 0.3 * s1 + 0.3 * st1 + 0.4 * f1
    ∧ DecisionTree.interpretability_score s2 st2 f2 = 0.3 * s2 + 0.3 * st2 + 0.4 * f2
    ∧ DecisionTree.conclusion (DecisionTree.interpretability_score s1 st1 f1)
        (DecisionTree.interpretability_score s2 st2 f2)
        = "SHAP is more interpretable than LIME (Reject H0, Accept H1)" := by
  refine ⟨rfl, rfl, ?_⟩
  simp only [DecisionTree.conclusion]
  rw [if_pos h]

/-- Witness for C2 at composite scores 0.7 (SHAP) vs 0.6 (LIME). -/
theorem C2_composite_witness :
    DecisionTree.interpretability_score 0.6 0.6 0.6
      < DecisionTree.interpretability_score 0.7 0.7 0.7
    ∧ DecisionTree.conclusion (DecisionTree.interpretability_score 0.7 0.7 0.7)
        (DecisionTree.interpretability_score 0.6 0.6 0.6)
        = "SHAP is more interpretable than LIME (Reject H0, Accept H1)" := by
  refine ⟨by norm_num [DecisionTree.interpretability_score], ?_⟩
  exact (C2_composite_and_verdict 0.7 0.7 0.7 0.6 0.6 0.6
    (by norm_num [DecisionTree.interpretability_score])).2.2

/-- Counterexample for C2 as stated: with SHAP composite 0.6 and LIME
composite 0.7 (LIME strictly higher), the verdict is the same string as
at an exact tie, namely the fail-to-reject string; it does not declare
LIME more interpretable. -/
theorem C2_verdict_counterexample :
    DecisionTree.interpretability_score 0.6 0.6 0.6 = 0.6
    ∧ DecisionTree.interpretability_score 0.7 0.7 0.7 = 0.7
    ∧ DecisionTree.conclusion 0.6 0.7
        = "SHAP is not more interpretable than LIME (Fail to reject H0)"
    ∧ DecisionTree.conclusion 0.6 0.7 = DecisionTree.conclusion 0.6 0.6 := by
  refine ⟨by norm_num [DecisionTree.interpretability_score],
    by norm_num [DecisionTree.interpretability_score], ?_, ?_⟩
  · simp only [DecisionTree.conclusion]
    rw [if_neg (by norm_num)]
  · simp only [DecisionTree.conclusion]
    rw [if_neg (by norm_num), if_neg (by norm_num)]

/-! Machinery for the explanation-to-vector claims: `applyEntry` writes
exactly the index `writeIdx`, and the fold is last-write-wins at each
position. -/

theorem filter_head_writeIdx (tok : String) :
    ∀ (F : List String) (m : String) (ms : List String),
      F.filter (fun f => strContains tok f) = m :: ms →
      writeIdx F tok = some (F.indexOf m) := by
  intro F
  induction F with
  | nil => intro m ms h; simp at h
  | cons f fs ih =>
    intro m ms h
    by_cases hp : strContains tok f
    · rw [List.filter_cons_of_pos hp] at h
      have hm : f = m := (List.cons_eq_cons.mp h).1
      subst hm
      simp [writeIdx, hp, List.indexOf_cons]
    · rw [List.filter_cons_of_neg (by simpa using hp)] at h
      have hmem : m ∈ fs.filter (fun f => strContains tok f) := by
        rw [h]; exact List.mem_cons_self m ms
      have hmtok : strContains tok m = true := (List.mem_filter.mp hmem).2
      have hfm : (f == m) = false := by
        rw [beq_eq_false_iff_ne]
        intro e
        rw [e] at hp
        exact hp hmtok
      rw [List.indexOf_cons, hfm]
      simp only [cond_false]
      unfold writeIdx
      rw [if_neg (by simpa using hp), ih m ms h]
      rfl

theorem filter_nil_writeIdx (tok : String) :
    ∀ F : List String, F.filter (fun f => strContains tok f) = [] →
      writeIdx F tok = none := by
  intro F
  induction F with
  | nil => intro _; rfl
  | cons f fs ih =>
    intro h
    by_cases hp : strContains tok f
    · rw [List.filter_cons_of_pos hp] at h
      exact absurd h (List.cons_ne_nil f _)
    · rw [List.filter_cons_of_neg (by simpa using hp)] at h
      unfold writeIdx
      rw [if_neg (by simpa using hp), ih h]
      rfl

theorem applyEntry_eq (F : List String) (vec : List ℚ) (fw : String × ℚ) :
    DecisionTree.applyEntry F vec fw =
      match writeIdx F fw.1 with
      | none => vec
      | some k => vec.set k |fw.2| := by
  unfold DecisionTree.applyEntry
  cases h : F.filter (fun f => strContains fw.1 f) with
  | nil => rw [filter_nil_writeIdx fw.1 F h]
  | cons m ms => rw [filter_head_writeIdx fw.1 F m ms h]

theorem writeIdx_spec (tok : String) :
    ∀ (F : List String) (k : ℕ), writeIdx F tok = some k →
      k < F.length ∧ strContains tok (F.getD k emptyStr) = true
      ∧ ∀ j, j < k → strContains tok (F.getD j emptyStr) = false := by
  intro F
  induction F with
  | nil => intro k h; simp [writeIdx] at h
  | cons f fs ih =>
    intro k h
    by_cases hp : strContains tok f
    · unfold writeIdx at h
      rw [if_pos hp] at h
      have hk : k = 0 := (Option.some_inj.mp h).symm
      subst hk
      exact ⟨Nat.succ_pos _, by simpa using hp, fun j hj => absurd hj (Nat.not_lt_zero j)⟩
    · unfold writeIdx at h
      rw [if_neg hp] at h
      cases hw : writeIdx fs tok with
      | none => rw [hw] at h; simp at h
      | some k' =>
        rw [hw] at h
        injection h with h2
        have hk : k = k' + 1 := h2.symm
        subst hk
        obtain ⟨h1, h2, h3⟩ := ih k' hw
        refine ⟨Nat.succ_lt_succ h1, by simpa using h2, ?_⟩
        intro j hj
        cases j with
        | zero =>
          rw [List.getD_cons_zero]
          exact Bool.eq_false_iff.mpr hp
        | succ j' => simpa using h3 j' (Nat.lt_of_succ_lt_succ hj)

theorem length_applyEntry (F : List String) (vec : List ℚ) (fw : String × ℚ) :
    (DecisionTree.applyEntry F vec fw).length = vec.length := by
  rw [applyEntry_eq]
  cases writeIdx F fw.1 with
  | none => rfl
  | some k => exact List.length_set vec k _

theorem length_foldl_applyEntry (F : List String) :
    ∀ (E : List (String × ℚ)) (vec : List ℚ),
      (E.foldl (DecisionTree.applyEntry F) vec).length = vec.length := by
  intro E
  induction E with
  | nil => intro vec; rfl
  | cons fw E' ih =>
    intro vec
    rw [List.foldl_cons, ih, length_applyEntry]

theorem lastWeight_nil (F : List String) (i : ℕ) : lastWeight F [] i = none := rfl

theorem lastWeight_cons (F : List String) (fw : String × ℚ) (E : List (String × ℚ)) (i : ℕ) :
    lastWeight F (fw :: E) i =
      (lastWeight F E i).or
        (if writeIdx F fw.1 = some i then some |fw.2| else none) := by
  unfold lastWeight
  rw [List.reverse_cons, List.find?_append]
  cases hE : E.reverse.find? (fun fw => writeIdx F fw.1 == some i) with
  | some x => simp [Option.or]
  | none =>
    by_cases hio : writeIdx F fw.1 = some i
    · simp [List.find?, hio]
    · have hb : (writeIdx F fw.1 == some i) = false := by
        rw [beq_eq_false_iff_ne]
        exact hio
      simp [List.find?, hb, hio]

theorem getD_foldl_applyEntry (F : List String) :
    ∀ (E : List (String × ℚ)) (vec : List ℚ) (i : ℕ), i < vec.length →
      (E.foldl (DecisionTree.applyEntry F) vec).getD i 0
        = (lastWeight F E i).getD (vec.getD i 0) := by
  intro E
  induction E with
  | nil => intro vec i hi; simp [lastWeight_nil]
  | cons fw E' ih =>
    intro vec i hi
    rw [List.foldl_cons]
    have hlen : (DecisionTree.applyEntry F vec fw).length = vec.length :=
      length_applyEntry F vec fw
    rw [ih (DecisionTree.applyEntry F vec fw) i (by rw [hlen]; exact hi)]
    rw [lastWeight_cons]
    cases hW : lastWeight F E' i with
    | some w => simp [Option.or]
    | none =>
      simp only [Option.or]
      by_cases hio : writeIdx F fw.1 = some i
      · rw [if_pos hio, applyEntry_eq, hio]
        simp only [Option.getD_some]
        rw [List.getD_eq_getElem?_getD, List.getElem?_set_self hi]
        rfl
      · rw [if_neg hio, applyEntry_eq]
        cases hw : writeIdx F fw.1 with
        | none => simp
        | some k =>
          have hk : k ≠ i := fun e => hio (by rw [hw, e])
          simp only [Option.getD_none]
          rw [List.getD_eq_getElem?_getD, List.getElem?_set_ne hk,
            ← List.getD_eq_getElem?_getD]

theorem applyEntry_nonneg (F : List String) (vec : List ℚ) (fw : String × ℚ)
    (h : ∀ x ∈ vec, 0 ≤ x) :
    ∀ x ∈ DecisionTree.applyEntry F vec fw, 0 ≤ x := by
  rw [applyEntry_eq]
  cases writeIdx F fw.1 with
  | none => exact h
  | some k =>
    intro x hx
    rcases List.mem_or_eq_of_mem_set hx with hmem | e
    · exact h x hmem
    · rw [e]
      exact abs_nonneg _

theorem foldl_applyEntry_nonneg (F : List String) :
    ∀ (E : List (String × ℚ)) (vec : List ℚ), (∀ x ∈ vec, 0 ≤ x) →
      ∀ x ∈ E.foldl (DecisionTree.applyEntry F) vec, 0 ≤ x := by
  intro E
  induction E with
  | nil => intro vec h; exact h
  | cons fw E' ih =>
    intro vec h
    rw [List.foldl_cons]
    exact ih _ (applyEntry_nonneg F vec fw h)

/-- Counterexample for C1 as stated: with feature sequence `["Glucose"]`
and two explanation entries whose tokens both contain "Glucose", the
produced vector holds the absolute weight 2 of the LAST matching entry;
the claim says it holds the weight 1 of the first matching entry. -/
theorem C1_first_match_counterexample :
    DecisionTree.explanation_to_vector
        [("Glucose <= 99", 1), ("Glucose > 50", 2)] ["Glucose"] = [2]
    ∧ DecisionTree.explanation_to_vector
        [("Glucose <= 99", 1), ("Glucose > 50", 2)] ["Glucose"] ≠ [1] := by
  exact ⟨by decide, by decide⟩

/-- C1 (amended): position `i` of the mapper's output holds the absolute
weight of the LAST entry of the explanation whose token's earliest
matching feature name (in feature order) is the one at position `i`, and
zero if there is no such entry; assignment is last-match-wins over
explanation order and per entry only the earliest matching feature
position is written. -/
theorem C1_vector_last_match (F : List String) (E : List (String × ℚ)) (i : ℕ)
    (hi : i < F.length) :
    (DecisionTree.explanation_to_vector E F).getD i 0 = (lastWeight F E i).getD 0 := by
  unfold DecisionTree.explanation_to_vector
  rw [getD_foldl_applyEntry F E _ i (by simpa using hi)]
  have hz : (List.replicate F.length (0 : ℚ)).getD i 0 = 0 := by
    rw [List.getD_eq_getElem?_getD, List.getElem?_replicate, if_pos hi]
    rfl
  rw [hz]

/-- Witness for C1 at the counterexample input: the characterisation
applies at position 0 of the "Glucose" feature sequence. -/
theorem C1_vector_last_match_witness :
    0 < (["Glucose"] : List String).length
    ∧ (DecisionTree.explanation_to_vector
          [("Glucose <= 99", 1), ("Glucose > 50", 2)] ["Glucose"]).getD 0 0
      = (lastWeight ["Glucose"] [("Glucose <= 99", 1), ("Glucose > 50", 2)] 0).getD 0 := by
  exact ⟨by decide,
    C1_vector_last_match ["Glucose"] [("Glucose <= 99", 1), ("Glucose > 50", 2)] 0 (by decide)⟩

/-- C6: the mapper's output always has length equal to the feature count,
every entry is nonnegative, and a feature contained in no explanation
token contributes a zero entry. -/
theorem C6_vector_invariants (F : List String) (E : List (String × ℚ)) :
    (DecisionTree.explanation_to_vector E F).length = F.length
    ∧ (∀ x ∈ DecisionTree.explanation_to_vector E F, 0 ≤ x)
    ∧ ∀ i, i < F.length →
        (∀ fw ∈ E, strContains fw.1 (F.getD i emptyStr) = false) →
        (DecisionTree.explanation_to_vector E F).getD i 0 = 0 := by
  refine ⟨?_, ?_, ?_⟩
  · unfold DecisionTree.explanation_to_vector
    rw [length_foldl_applyEntry, List.length_replicate]
  · unfold DecisionTree.explanation_to_vector
    refine foldl_applyEntry_nonneg F E _ ?_
    intro x hx
    rw [List.eq_of_mem_replicate hx]
  · intro i hi hnone
    unfold DecisionTree.explanation_to_vector
    rw [getD_foldl_applyEntry F E _ i (by simpa using hi)]
    have hfind : E.reverse.find? (fun fw => writeIdx F fw.1 == some i) = none := by
      rw [List.find?_eq_none]
      intro fw hfw hbeq
      have hw : writeIdx F fw.1 = some i := beq_iff_eq.mp hbeq
      have hmatch := (writeIdx_spec fw.1 F i hw).2.1
      have := hnone fw (List.mem_reverse.mp hfw)
      rw [this] at hmatch
      exact Bool.false_ne_true hmatch
    unfold lastWeight
    rw [hfind, List.getD_eq_getElem?_getD, List.getElem?_replicate, if_pos hi]
    rfl

/-- Witness for C6 at a concrete input: one entry matching "Glucose" only,
checked at the unmatched "BMI" position. -/
theorem C6_vector_invariants_witness :
    (DecisionTree.explanation_to_vector [("Glucose <= 99", -2)] ["Glucose", "BMI"]).length
      = (["Glucose", "BMI"] : List String).length
    ∧ 1 < (["Glucose", "BMI"] : List String).length
    ∧ (∀ fw ∈ [("Glucose <= 99", (-2 : ℚ))],
        strContains fw.1 ((["Glucose", "BMI"] : List String).getD 1 emptyStr) = false)
    ∧ (DecisionTree.explanation_to_vector [("Glucose <= 99", -2)] ["Glucose", "BMI"]).getD 1 0
      = 0 := by
  refine ⟨(C6_vector_invariants ["Glucose", "BMI"] [("Glucose <= 99", -2)]).1,
    by decide, by decide, ?_⟩
  exact (C6_vector_invariants ["Glucose", "BMI"] [("Glucose <= 99", -2)]).2.2 1
    (by decide) (by decide)

/-- C9: one explanation entry writes its absolute weight only at the
position `k` of the earliest feature name (in feature order) contained in
its token; the position `j` of any other feature name also contained in
the token is left unchanged by that entry. -/
theorem C9_earliest_match_only (F : List String) (vec : List ℚ) (fw : String × ℚ)
    (k j : ℕ) (hk : writeIdx F fw.1 = some k) (hvec : vec.length = F.length)
    (hjk : j ≠ k) (hj : strContains fw.1 (F.getD j emptyStr) = true) :
    (DecisionTree.applyEntry F vec fw).getD j 0 = vec.getD j 0
    ∧ (DecisionTree.applyEntry F vec fw).getD k 0 = |fw.2|
    ∧ strContains fw.1 (F.getD k emptyStr) = true
    ∧ ∀ j2, j2 < k → strContains fw.1 (F.getD j2 emptyStr) = false := by
  obtain ⟨hklen, hkmatch, hkleast⟩ := writeIdx_spec fw.1 F k hk
  refine ⟨?_, ?_, hkmatch, hkleast⟩
  · rw [applyEntry_eq, hk, List.getD_eq_getElem?_getD,
      List.getElem?_set_ne (Ne.symm hjk), ← List.getD_eq_getElem?_getD]
  · rw [applyEntry_eq, hk, List.getD_eq_getElem?_getD,
      List.getElem?_set_self (by rw [hvec]; exact hklen)]
    rfl

/-- Witness for C9: the token "Age BMI strongly" contains both feature
names; only the "Age" position (earliest) is written, so the "BMI"
position keeps its old value 7. -/
theorem C9_earliest_match_only_witness :
    writeIdx ["Age", "BMI"] "Age BMI strongly" = some 0
    ∧ ([5, 7] : List ℚ).length = (["Age", "BMI"] : List String).length
    ∧ (1 : ℕ) ≠ 0
    ∧ strContains "Age BMI strongly" ((["Age", "BMI"] : List String).getD 1 emptyStr) = true
    ∧ (DecisionTree.applyEntry ["Age", "BMI"] [5, 7] ("Age BMI strongly", 3)).getD 1 0 = 7 := by
  refine ⟨by decide, by decide, by decide, by decide, ?_⟩
  have h := (C9_earliest_match_only ["Age", "BMI"] [5, 7] ("Age BMI strongly", 3) 0 1
    (by decide) (by decide) (by decide) (by decide)).1
  exact h.trans (by decide)

/-- C10: the SHAP sparsity score is independent of the attribution
values: over `n ≥ 5` features the selected top-5 list always has exactly
5 elements, so the score equals `1 - 5/n` for every vector. -/
theorem C10_shap_sparsity_constant (feature_names : List String) (v : List ℚ) (n : ℕ)
    (hn : 5 ≤ n) (hv : v.length = n) :
    (DecisionTree.shap_explained_features feature_names v).length = 5
    ∧ DecisionTree.calculate_sparsity_score
        (DecisionTree.shap_explained_features feature_names v) n = 1 - (5 : ℚ) / n := by
  have h1 : (DecisionTree.argsortAbs v).length = n := by
    unfold DecisionTree.argsortAbs
    rw [List.length_mergeSort, List.length_range, hv]
  have hlen : (DecisionTree.shap_explained_features feature_names v).length = 5 := by
    unfold DecisionTree.shap_explained_features
    rw [List.length_map, List.length_drop, h1]
    omega
  refine ⟨hlen, ?_⟩
  unfold DecisionTree.calculate_sparsity_score
  rw [hlen]
  norm_num

/-- Witness for C10 at a concrete 8-feature vector. -/
theorem C10_shap_sparsity_witness :
    (5 ≤ 8 ∧ ([3, -1, 2, 0, 5, -4, 1, 2] : List ℚ).length = 8)
    ∧ (DecisionTree.shap_explained_features
        ["Pregnancies", "Glucose", "BloodPressure", "SkinThickness", "Insulin", "BMI",
          "DiabetesPedigreeFunction", "Age"] [3, -1, 2, 0, 5, -4, 1, 2]).length = 5 := by
  exact ⟨⟨by norm_num, by decide⟩,
    (C10_shap_sparsity_constant
      ["Pregnancies", "Glucose", "BloodPressure", "SkinThickness", "Insulin", "BMI",
        "DiabetesPedigreeFunction", "Age"] [3, -1, 2, 0, 5, -4, 1, 2] 8
      (by norm_num) (by decide)).1⟩

/-- C8: the scoring logic of the two scripts is equivalent: the embedded
functions of `DecisionTree` and `RandomForest` agree on every input. -/
theorem C8_scripts_equivalent :
    (∀ (E : List (String × ℚ)) (F : List String),
      DecisionTree.explanation_to_vector E F = RandomForest.explanation_to_vector E F)
    ∧ (∀ (fs : List String) (n : ℕ),
      DecisionTree.calculate_sparsity_score fs n = RandomForest.calculate_sparsity_score fs n)
    ∧ (∀ (sv : List NArray) (i : ℕ),
      DecisionTree.get_shap_vector sv i = RandomForest.get_shap_vector sv i)
    ∧ (∀ (fnames : List String) (v : List ℚ),
      DecisionTree.shap_explained_features fnames v
        = RandomForest.shap_explained_features fnames v)
    ∧ (∀ m : List ℚ, DecisionTree.shap_fidelity_score m = RandomForest.shap_fidelity_score m)
    ∧ (∀ m l : List ℚ,
      DecisionTree.lime_fidelity_score m l = RandomForest.lime_fidelity_score m l)
    ∧ (∀ s st f : ℝ,
      DecisionTree.interpretability_score s st f = RandomForest.interpretability_score s st f)
    ∧ (∀ a b : ℝ, DecisionTree.conclusion a b = RandomForest.conclusion a b) := by
  exact ⟨fun _ _ => rfl, fun _ _ => rfl, fun _ _ => rfl, fun _ _ => rfl, fun _ => rfl,
    fun _ _ => rfl, fun _ _ _ => rfl, fun _ _ => rfl⟩

/-! Machinery for the stability claim: dot products and Cauchy-Schwarz. -/

theorem dotQ_cons (a b : ℚ) (as bs : List ℚ) :
    dotQ (a :: as) (b :: bs) = a * b + dotQ as bs := by
  simp [dotQ]

theorem dotQ_self_nonneg : ∀ v : List ℚ, 0 ≤ dotQ v v := by
  intro v
  induction v with
  | nil => exact le_refl 0
  | cons a as ih =>
    rw [dotQ_cons]
    nlinarith [mul_self_nonneg a]

theorem dotQ_comm : ∀ v1 v2 : List ℚ, dotQ v1 v2 = dotQ v2 v1 := by
  intro v1
  induction v1 with
  | nil => intro v2; cases v2 <;> rfl
  | cons a as ih =>
    intro v2
    cases v2 with
    | nil => rfl
    | cons b bs => rw [dotQ_cons, dotQ_cons, mul_comm, ih bs]

theorem dotQ_sq_le : ∀ v1 v2 : List ℚ, (dotQ v1 v2) ^ 2 ≤ dotQ v1 v1 * dotQ v2 v2 := by
  intro v1
  induction v1 with
  | nil =>
    intro v2
    simp [dotQ]
  | cons a as ih =>
    intro v2
    cases v2 with
    | nil => simp [dotQ]
    | cons b bs =>
      rw [dotQ_cons, dotQ_cons, dotQ_cons]
      have h := ih bs
      have hA := dotQ_self_nonneg as
      have hB := dotQ_self_nonneg bs
      rcases eq_or_lt_of_le hB with hB0 | hBpos
      · have hS : dotQ as bs = 0 := by
          have h2 : (dotQ as bs) ^ 2 ≤ 0 := by nlinarith
          have h3 : (dotQ as bs) ^ 2 = 0 := le_antisymm h2 (sq_nonneg _)
          exact pow_eq_zero_iff (by norm_num) |>.mp h3
        rw [hS, ← hB0]
        nlinarith [mul_nonneg hA (mul_self_nonneg b)]
      · nlinarith [sq_nonneg (a * dotQ bs bs - b * dotQ as bs),
          mul_nonneg (mul_self_nonneg b) (sub_nonneg.mpr h),
          mul_nonneg hBpos.le (sub_nonneg.mpr h)]

theorem dotQ_replicate_zero (m : ℕ) : ∀ v : List ℚ, dotQ (List.replicate m 0) v = 0 := by
  induction m with
  | zero => intro v; rfl
  | succ m ih =>
    intro v
    cases v with
    | nil => rfl
    | cons b bs =>
      rw [List.replicate_succ, dotQ_cons, ih bs]
      ring

/-- C4: the stability score (cosine similarity) always lies in `[-1, 1]`,
is symmetric, and equals 1 on any vector whose self dot product is
nonzero (the precondition the code leaves implicit: on a zero vector
sklearn returns 0, not 1). -/
theorem C4_stability_cosine (v1 v2 v : List ℚ) (h : dotQ v v ≠ 0) :
    (-1 ≤ cosine_similarity v1 v2 ∧ cosine_similarity v1 v2 ≤ 1)
    ∧ cosine_similarity v v = 1
    ∧ cosine_similarity v1 v2 = cosine_similarity v2 v1 := by
  refine ⟨?_, ?_, ?_⟩
  · have ha : (0 : ℝ) ≤ ((dotQ v1 v1 : ℚ) : ℝ) := by exact_mod_cast dotQ_self_nonneg v1
    have hb : (0 : ℝ) ≤ ((dotQ v2 v2 : ℚ) : ℝ) := by exact_mod_cast dotQ_self_nonneg v2
    have hcs : ((dotQ v1 v2 : ℚ) : ℝ) ^ 2 ≤ ((dotQ v1 v1 : ℚ) : ℝ) * ((dotQ v2 v2 : ℚ) : ℝ) := by
      exact_mod_cast dotQ_sq_le v1 v2
    have key : |((dotQ v1 v2 : ℚ) : ℝ)|
        ≤ Real.sqrt ((dotQ v1 v1 : ℚ) : ℝ) * Real.sqrt ((dotQ v2 v2 : ℚ) : ℝ) := by
      rw [← Real.sqrt_mul ha, ← Real.sqrt_sq_eq_abs]
      exact Real.sqrt_le_sqrt hcs
    have hd : (0 : ℝ) ≤ Real.sqrt ((dotQ v1 v1 : ℚ) : ℝ) * Real.sqrt ((dotQ v2 v2 : ℚ) : ℝ) :=
      mul_nonneg (Real.sqrt_nonneg _) (Real.sqrt_nonneg _)
    rcases eq_or_lt_of_le hd with hd0 | hdpos
    · have hx : |((dotQ v1 v2 : ℚ) : ℝ)| ≤ 0 := by rw [hd0]; exact key
      have hx0 : ((dotQ v1 v2 : ℚ) : ℝ) = 0 := abs_eq_zero.mp (le_antisymm hx (abs_nonneg _))
      unfold cosine_similarity
      rw [hx0, zero_div]
      norm_num
    · have habs : |cosine_similarity v1 v2| ≤ 1 := by
        unfold cosine_similarity
        rw [abs_div, abs_of_nonneg hd]
        exact (div_le_one hdpos).mpr key
      exact abs_le.mp habs
  · have hq : ((dotQ v v : ℚ) : ℝ) ≠ 0 := by exact_mod_cast h
    have hnn : (0 : ℝ) ≤ ((dotQ v v : ℚ) : ℝ) := by exact_mod_cast dotQ_self_nonneg v
    unfold cosine_similarity
    rw [Real.mul_self_sqrt hnn]
    exact div_self hq
  · unfold cosine_similarity
    rw [dotQ_comm v1 v2, mul_comm]

/-- Witness for C4 at concrete vectors, with the nonzero precondition
discharged at `v = [3, 4]`. -/
theorem C4_stability_witness :
    dotQ [3, 4] [3, 4] ≠ 0
    ∧ cosine_similarity [3, 4] [3, 4] = 1
    ∧ cosine_similarity [1, 2] [2, 1] = cosine_similarity [2, 1] [1, 2] := by
  have h : dotQ [3, 4] [3, 4] ≠ 0 := by norm_num [dotQ]
  exact ⟨h, (C4_stability_cosine [1, 2] [2, 1] [3, 4] h).2.1,
    (C4_stability_cosine [1, 2] [2, 1] [3, 4] h).2.2⟩

/-- Counterexample for C7 as stated: an empty explanation list does not
make the scoring operations fail; the mapper returns the all-zero vector
over the 8 diabetes features, and the failure-explicit sparsity variant
returns a value (`some 1`) rather than propagating a failure. -/
theorem C7_no_failure_counterexample :
    DecisionTree.explanation_to_vector []
        ["Pregnancies", "Glucose", "BloodPressure", "SkinThickness", "Insulin", "BMI",
          "DiabetesPedigreeFunction", "Age"]
      = List.replicate 8 0
    ∧ DecisionTree.calculate_sparsity_score_checked [] 8 = some 1 := by
  constructor
  · rfl
  · unfold DecisionTree.calculate_sparsity_score_checked
    norm_num

/-- C7 (amended): an empty explanation list does not terminate the run:
the mapper returns the all-zero vector of length equal to the feature
count, the sparsity score of the resulting empty explained-feature list
is 1 for any positive feature count (the failure-explicit variant returns
a value), and the stability of the resulting zero vector against any
vector is 0 rather than an error; fail-fast behaviour concerns the other
failure classes (missing file, malformed data), not this case. -/
theorem C7_empty_explanation_total (F : List String) (n : ℕ) (hn : 0 < n) (v : List ℚ) :
    DecisionTree.explanation_to_vector [] F = List.replicate F.length 0
    ∧ DecisionTree.calculate_sparsity_score [] n = 1
    ∧ DecisionTree.calculate_sparsity_score_checked [] n
        = some (DecisionTree.calculate_sparsity_score [] n)
    ∧ cosine_similarity (List.replicate F.length 0) v = 0 := by
  refine ⟨rfl, ?_, ?_, ?_⟩
  · unfold DecisionTree.calculate_sparsity_score
    norm_num
  · unfold DecisionTree.calculate_sparsity_score_checked DecisionTree.calculate_sparsity_score
    rw [if_neg hn.ne']
  · unfold cosine_similarity
    rw [dotQ_replicate_zero]
    norm_num

/-- Witness for C7 at the real feature count 8. -/
theorem C7_empty_explanation_witness :
    0 < 8 ∧ DecisionTree.calculate_sparsity_score [] 8 = 1 := by
  exact ⟨by norm_num, (C7_empty_explanation_total [] 8 (by norm_num) []).2.1⟩
